import Mathlib

/- Verification development for the Victory36 multi-source prediction
fan-out coordinator.  The definitions below are a shallow embedding of
src/prediction-pipeline-controller/main.py (class
PredictionPipelineController) and of the input normalizer of
src/dr_lucy_service_fixed.py (class DrLucyFlightMemory).  Python floats
are modelled as rationals; Python dicts are modelled as association
lists with unique keys, whose insertion semantics (new binding shadows
the old on lookup) matches dict assignment. -/

/-- JSON values as handled by the Python code: dicts, lists, strings,
numbers, booleans and None.  Numeric literals are modelled as rationals. -/
inductive Json where
  | null : Json
  | bool (b : Bool) : Json
  | num (q : ℚ) : Json
  | str (s : String) : Json
  | arr (xs : List Json) : Json
  | obj (kvs : List (String × Json)) : Json

/-- Decimal rendering of a JSON numeral.  Integer values render exactly as
CPython json.dumps renders ints; non-integral rationals render as num/den
(CPython float repr refinement is out of scope: no claim depends on the
numeral text, only on the serialization being a function of the value). -/
def numRepr (q : ℚ) : String :=
  if q.den = 1 then toString q.num else toString q.num ++ "/" ++ toString q.den

/-- One hexadecimal digit, lowercase, as CPython renders \uXXXX escapes. -/
def hexDigit (n : Nat) : Char :=
  if n < 10 then Char.ofNat (48 + n) else Char.ofNat (87 + n)

/-- Four lowercase hexadecimal digits. -/
def hex4 (n : Nat) : String :=
  String.mk [hexDigit (n / 4096 % 16), hexDigit (n / 256 % 16),
             hexDigit (n / 16 % 16), hexDigit (n % 16)]

/-- Escaping of one character as CPython json.dumps with the default
ensure_ascii=True: quote, backslash and the control characters b, t, n,
f, r get two-character escapes; every other character below 0x20 or
above 0x7e becomes a \uXXXX escape (a surrogate pair above 0xffff). -/
def escChar (c : Char) : String :=
  let n := c.toNat
  if c = '"' then "\\\""
  else if c = '\\' then "\\\\"
  else if n = 8 then "\\b"
  else if n = 9 then "\\t"
  else if n = 10 then "\\n"
  else if n = 12 then "\\f"
  else if n = 13 then "\\r"
  else if n < 32 ∨ 126 < n then
    if n < 65536 then "\\u" ++ hex4 n
    else "\\u" ++ hex4 (55296 + (n - 65536) / 1024) ++
         "\\u" ++ hex4 (56320 + (n - 65536) % 1024)
  else String.singleton c

/-- Escape every character of a string. -/
def escString (s : String) : String := String.join (s.data.map escChar)

/-- A JSON string literal: quoted and escaped. -/
def quoteStr (s : String) : String := "\"" ++ escString s ++ "\""

/-- Comma-space separated concatenation: the CPython default separators. -/
def joinComma : List String → String
  | [] => ""
  | [x] => x
  | x :: y :: xs => x ++ ", " ++ joinComma (y :: xs)

/-- Order on association-list entries: by key, the comparison CPython
sorted uses on dict items (keys are unique in a dict, so the comparison
never reaches the values). -/
def entryLe {α : Type} (a b : String × α) : Prop := a.1 ≤ b.1

instance {α : Type} : DecidableRel (entryLe (α := α)) :=
  fun a b => inferInstanceAs (Decidable (a.1 ≤ b.1))

instance {α : Type} : IsTotal (String × α) entryLe := ⟨fun a b => le_total a.1 b.1⟩

instance {α : Type} : IsTrans (String × α) entryLe := ⟨fun _ _ _ h₁ h₂ => le_trans h₁ h₂⟩

/-- Strict key order on entries. -/
def entryLt {α : Type} (a b : String × α) : Prop := a.1 < b.1

/-- Render one object entry: quoted key, colon-space, rendered value. -/
def renderEntry (e : String × String) : String := quoteStr e.1 ++ ": " ++ e.2

mutual
/-- CPython json.dumps(v, sort_keys=True) with default separators, as
called by PredictionPipelineController._context_hash.  Object entries
are rendered and then ordered by key; for the unique-key dicts Python
produces this equals CPython sorting the items before rendering. -/
def dumps : Json → String
  | .null => "null"
  | .bool true => "true"
  | .bool false => "false"
  | .num q => numRepr q
  | .str s => quoteStr s
  | .arr xs => "[" ++ joinComma (dumpsList xs) ++ "]"
  | .obj kvs =>
      "\x7b" ++ joinComma ((List.insertionSort entryLe (dumpsEntries kvs)).map renderEntry) ++ "\x7d"

/-- Render each element of a JSON array. -/
def dumpsList : List Json → List String
  | [] => []
  | x :: xs => dumps x :: dumpsList xs

/-- Render each object entry to a (key, rendered value) pair. -/
def dumpsEntries : List (String × Json) → List (String × String)
  | [] => []
  | (k, v) :: r => (k, dumps v) :: dumpsEntries r
end

/-- UTF-8 encoding of one character (code point to bytes). -/
def utf8Bytes (c : Char) : List Nat :=
  let n := c.toNat
  if n < 128 then [n]
  else if n < 2048 then [192 + n / 64, 128 + n % 64]
  else if n < 65536 then [224 + n / 4096, 128 + n / 64 % 64, 128 + n % 64]
  else [240 + n / 262144, 128 + n / 4096 % 64, 128 + n / 64 % 64, 128 + n % 64]

/-- UTF-8 encoding of a string, as CPython str.encode() produces. -/
def utf8Encode (s : String) : List Nat := (s.data.map utf8Bytes).flatten

/-- Reduce to a 32-bit word. -/
def w32 (n : Nat) : Nat := n % 4294967296

/-- 32-bit addition. -/
def wadd (a b : Nat) : Nat := (a + b) % 4294967296

/-- 32-bit complement. -/
def wnot (a : Nat) : Nat := 4294967295 - a % 4294967296

/-- 32-bit left rotation. -/
def rotl (x s : Nat) : Nat :=
  ((x <<< s) % 4294967296) ||| ((x % 4294967296) >>> (32 - s))

/-- Little-endian byte rendering: k bytes of v. -/
def toLE : Nat → Nat → List Nat
  | 0, _ => []
  | k + 1, v => v % 256 :: toLE k (v / 256)

/-- MD5 padding: 0x80, zeros to 56 mod 64, then the bit length as eight
little-endian bytes. -/
def md5Pad (m : List Nat) : List Nat :=
  m ++ [128] ++ List.replicate ((119 - m.length % 64) % 64) 0 ++
    toLE 8 ((8 * m.length) % 18446744073709551616)

/-- Group little-endian bytes into 32-bit words. -/
def bytesToWords : List Nat → List Nat
  | a :: b :: c :: d :: rest => (a + 256 * b + 65536 * c + 16777216 * d) :: bytesToWords rest
  | _ => []

/-- Split a byte list into 64-byte blocks. -/
def chunks64 (l : List Nat) : List (List Nat) :=
  if h : l = [] then [] else (l.take 64) :: chunks64 (l.drop 64)
termination_by l.length
decreasing_by
  simp only [List.length_drop]
  cases l with
  | nil => exact absurd rfl h
  | cons x xs => simp; omega

/-- The MD5 sine-derived round constant table. -/
def md5K : List Nat :=
  [3614090360, 3905402710, 606105819, 3250441966, 4118548399, 1200080426,
   2821735955, 4249261313, 1770035416, 2336552879, 4294925233, 2304563134,
   1804603682, 4254626195, 2792965006, 1236535329, 4129170786, 3225465664,
   643717713, 3921069994, 3593408605, 38016083, 3634488961, 3889429448,
   568446438, 3275163606, 4107603335, 1163531501, 2850285829, 4243563512,
   1735328473, 2368359562, 4294588738, 2272392833, 1839030562, 4259657740,
   2763975236, 1272893353, 4139469664, 3200236656, 681279174, 3936430074,
   3572445317, 76029189, 3654602809, 3873151461, 530742520, 3299628645,
   4096336452, 1126891415, 2878612391, 4237533241, 1700485571, 2399980690,
   4293915773, 2240044497, 1873313359, 4264355552, 2734768916, 1309151649,
   4149444226, 3174756917, 718787259, 3951481745]

/-- The MD5 per-round shift amounts. -/
def md5S : List Nat :=
  [7, 12, 17, 22, 7, 12, 17, 22, 7, 12, 17, 22, 7, 12, 17, 22,
   5, 9, 14, 20, 5, 9, 14, 20, 5, 9, 14, 20, 5, 9, 14, 20,
   4, 11, 16, 23, 4, 11, 16, 23, 4, 11, 16, 23, 4, 11, 16, 23,
   6, 10, 15, 21, 6, 10, 15, 21, 6, 10, 15, 21, 6, 10, 15, 21]

/-- The MD5 nonlinear function for round i. -/
def md5F (i b c d : Nat) : Nat :=
  if i < 16 then (b &&& c) ||| (wnot b &&& d)
  else if i < 32 then (d &&& b) ||| (wnot d &&& c)
  else if i < 48 then b ^^^ c ^^^ d
  else c ^^^ (b ||| wnot d)

/-- The MD5 message-word index for round i. -/
def md5G (i : Nat) : Nat :=
  if i < 16 then i
  else if i < 32 then (5 * i + 1) % 16
  else if i < 48 then (3 * i + 5) % 16
  else (7 * i) % 16

/-- Running MD5 state. -/
structure MD5State where
  a : Nat
  b : Nat
  c : Nat
  d : Nat

/-- One MD5 round on message words M. -/
def md5Round (M : List Nat) (st : MD5State) (i : Nat) : MD5State :=
  let f := w32 (md5F i st.b st.c st.d + st.a + md5K.getD i 0 + M.getD (md5G i) 0)
  ⟨st.d, wadd st.b (rotl f (md5S.getD i 0)), st.b, st.c⟩

/-- Process one 64-byte block. -/
def md5Block (st : MD5State) (block : List Nat) : MD5State :=
  let M := bytesToWords block
  let r := (List.range 64).foldl (md5Round M) st
  ⟨wadd st.a r.a, wadd st.b r.b, wadd st.c r.c, wadd st.d r.d⟩

/-- Two lowercase hex digits of one byte. -/
def byteHex (n : Nat) : String := String.mk [hexDigit (n / 16 % 16), hexDigit (n % 16)]

/-- MD5 hex digest of a byte list, as hashlib.md5(...).hexdigest(). -/
def md5hex (msg : List Nat) : String :=
  let st := (chunks64 (md5Pad msg)).foldl md5Block ⟨1732584193, 4023233417, 2562383102, 271733878⟩
  String.join ((toLE 4 st.a ++ toLE 4 st.b ++ toLE 4 st.c ++ toLE 4 st.d).map byteHex)

/-- PredictionPipelineController._context_hash: the md5 hex digest of
json.dumps(context, sort_keys=True) over the mission context dict. -/
def contextHash (context : List (String × Json)) : String :=
  md5hex (utf8Encode (dumps (.obj context)))

/-- PredictionPipelineController._cache_key. -/
def cacheKey (session_id : String) (context_hash : String) : String :=
  "prediction:" ++ session_id ++ ":" ++ context_hash

/-- Semantic equality of JSON values: equal scalars, pointwise equal
arrays, and objects with unique keys carrying the same key set with
semantically equal values for each key — equality of two Python dict
structures that differ only in key insertion order, at any depth. -/
def SemEq : Json → Json → Prop
  | .null, .null => True
  | .bool a, .bool b => a = b
  | .num a, .num b => a = b
  | .str a, .str b => a = b
  | .arr xs, .arr ys =>
      xs.length = ys.length ∧ ∀ p ∈ xs.zip ys, SemEq p.1 p.2
  | .obj l₁, .obj l₂ =>
      (l₁.map Prod.fst).Nodup ∧ (l₂.map Prod.fst).Nodup ∧
      (∀ k, k ∈ l₁.map Prod.fst ↔ k ∈ l₂.map Prod.fst) ∧
      (∀ kv₁ ∈ l₁, ∀ kv₂ ∈ l₂, kv₁.1 = kv₂.1 → SemEq kv₁.2 kv₂.2)
  | _, _ => False
termination_by a b => sizeOf a + sizeOf b
decreasing_by
  · obtain ⟨h1, h2⟩ := List.of_mem_zip (by assumption : _ ∈ _)
    have := List.sizeOf_lt_of_mem h1
    have := List.sizeOf_lt_of_mem h2
    simp
    omega
  · rename_i hm₁ hm₂ heq
    have h1 := List.sizeOf_lt_of_mem hm₁
    have h2 := List.sizeOf_lt_of_mem hm₂
    obtain ⟨k₁, v₁⟩ := kv₁
    obtain ⟨k₂, v₂⟩ := kv₂
    simp at h1 h2 ⊢
    omega

/-- Rendering object entries is the entrywise map of dumps over values. -/
theorem dumpsEntries_eq_map (l : List (String × Json)) :
    dumpsEntries l = l.map (fun kv => (kv.1, dumps kv.2)) := by
  induction l with
  | nil => simp [dumpsEntries]
  | cons kv r ih =>
      obtain ⟨k, v⟩ := kv
      simp [dumpsEntries, ih]

/-- Two permutations of a unique-key entry list sort identically by key. -/
theorem insertionSort_eq_of_perm {α : Type} {l₁ l₂ : List (String × α)}
    (hp : l₁.Perm l₂) (hnd : (l₁.map Prod.fst).Nodup) :
    List.insertionSort entryLe l₁ = List.insertionSort entryLe l₂ := by
  have hp₁ : (List.insertionSort entryLe l₁).Perm l₁ := List.perm_insertionSort _ _
  have hp₂ : (List.insertionSort entryLe l₂).Perm l₂ := List.perm_insertionSort _ _
  have hpp : (List.insertionSort entryLe l₁).Perm (List.insertionSort entryLe l₂) :=
    (hp₁.trans hp).trans hp₂.symm
  have hnd₁ : ((List.insertionSort entryLe l₁).map Prod.fst).Nodup :=
    ((hp₁.map Prod.fst).nodup_iff).2 hnd
  have hnd₂ : ((List.insertionSort entryLe l₂).map Prod.fst).Nodup :=
    ((hp₂.map Prod.fst).nodup_iff).2 (((hp.map Prod.fst).nodup_iff).1 hnd)
  have hlt : ∀ s : List (String × α), s.Sorted entryLe → ((s.map Prod.fst).Nodup) →
      s.Sorted entryLt := by
    intro s hs hnds
    have hne : s.Pairwise (fun a b => ¬ a.1 = b.1) := (List.pairwise_map).1 hnds
    exact (hs.and hne).imp (fun hab => lt_of_le_of_ne hab.1 hab.2)
  haveI : IsAntisymm (String × α) entryLt := ⟨fun a b h₁ h₂ => (lt_asymm h₁ h₂).elim⟩
  exact List.eq_of_perm_of_sorted hpp
    (hlt _ (List.sorted_insertionSort entryLe l₁) hnd₁)
    (hlt _ (List.sorted_insertionSort entryLe l₂) hnd₂)

/-- Semantically equal JSON values serialize to the same string
(strong induction on combined size). -/
theorem dumps_semEq_aux :
    ∀ n, ∀ a b : Json, sizeOf a + sizeOf b ≤ n → SemEq a b → dumps a = dumps b := by
  intro n
  induction n using Nat.strong_induction_on with
  | _ n IH =>
    intro a b hn h
    cases a <;> cases b <;> (try (rw [SemEq.eq_def] at h; exact h.elim))
    case null.null => rfl
    case bool.bool x y =>
      rw [SemEq.eq_def] at h
      exact h ▸ rfl
    case num.num x y =>
      rw [SemEq.eq_def] at h
      exact h ▸ rfl
    case str.str x y =>
      rw [SemEq.eq_def] at h
      exact h ▸ rfl
    case arr.arr xs ys =>
      rw [SemEq.eq_def] at h
      obtain ⟨hlen, hzip⟩ := h
      have hsz : sizeOf xs + sizeOf ys + 2 ≤ n := by
        simp at hn
        omega
      have key : ∀ us vs : List Json, sizeOf us + sizeOf vs ≤ n → us.length = vs.length →
          (∀ p ∈ us.zip vs, SemEq p.1 p.2) → dumpsList us = dumpsList vs := by
        intro us
        induction us with
        | nil =>
            intro vs _ hl _
            cases vs with
            | nil => rfl
            | cons v vs => simp at hl
        | cons u us ihus =>
            intro vs hsz2 hl hz
            cases vs with
            | nil => simp at hl
            | cons v vs =>
                have hszu : sizeOf u + sizeOf v < n := by
                  simp at hsz2
                  omega
                have h1 : dumps u = dumps v :=
                  IH (sizeOf u + sizeOf v) hszu u v le_rfl (hz (u, v) (by simp))
                have h2 : dumpsList us = dumpsList vs := by
                  refine ihus vs ?_ (by simpa using hl) (fun p hp => hz p ?_)
                  · simp at hsz2 ⊢
                    omega
                  · simp [List.zip_cons_cons]
                    right
                    exact hp
                simp [dumpsList, h1, h2]
      have hlists : dumpsList xs = dumpsList ys := key xs ys (by omega) hlen hzip
      simp [dumps, hlists]
    case obj.obj l₁ l₂ =>
      rw [SemEq.eq_def] at h
      obtain ⟨hnd₁, hnd₂, hkeys, hvals⟩ := h
      have hfst : ∀ l : List (String × Json),
          (dumpsEntries l).map Prod.fst = l.map Prod.fst := by
        intro l
        rw [dumpsEntries_eq_map, List.map_map]
        rfl
      have hndr₁ : ((dumpsEntries l₁).map Prod.fst).Nodup := by rw [hfst]; exact hnd₁
      have hndr₂ : ((dumpsEntries l₂).map Prod.fst).Nodup := by rw [hfst]; exact hnd₂
      have hmem : ∀ e : String × String, e ∈ dumpsEntries l₁ ↔ e ∈ dumpsEntries l₂ := by
        intro e
        rw [dumpsEntries_eq_map, dumpsEntries_eq_map]
        simp only [List.mem_map]
        constructor
        · rintro ⟨kv₁, hm₁, rfl⟩
          have hk : kv₁.1 ∈ l₂.map Prod.fst :=
            (hkeys kv₁.1).1 (List.mem_map.2 ⟨kv₁, hm₁, rfl⟩)
          obtain ⟨kv₂, hm₂, hke⟩ := List.mem_map.1 hk
          have hsem := hvals kv₁ hm₁ kv₂ hm₂ hke.symm
          have hszv : sizeOf kv₁.2 + sizeOf kv₂.2 < n := by
            have s₁ := List.sizeOf_lt_of_mem hm₁
            have s₂ := List.sizeOf_lt_of_mem hm₂
            obtain ⟨ka, va⟩ := kv₁
            obtain ⟨kb, vb⟩ := kv₂
            simp at s₁ s₂ hn ⊢
            omega
          have hdv : dumps kv₁.2 = dumps kv₂.2 :=
            IH _ hszv kv₁.2 kv₂.2 le_rfl hsem
          exact ⟨kv₂, hm₂, by rw [← hke, ← hdv]⟩
        · rintro ⟨kv₂, hm₂, rfl⟩
          have hk : kv₂.1 ∈ l₁.map Prod.fst :=
            (hkeys kv₂.1).2 (List.mem_map.2 ⟨kv₂, hm₂, rfl⟩)
          obtain ⟨kv₁, hm₁, hke⟩ := List.mem_map.1 hk
          have hsem := hvals kv₁ hm₁ kv₂ hm₂ hke
          have hszv : sizeOf kv₁.2 + sizeOf kv₂.2 < n := by
            have s₁ := List.sizeOf_lt_of_mem hm₁
            have s₂ := List.sizeOf_lt_of_mem hm₂
            obtain ⟨ka, va⟩ := kv₁
            obtain ⟨kb, vb⟩ := kv₂
            simp at s₁ s₂ hn ⊢
            omega
          have hdv : dumps kv₁.2 = dumps kv₂.2 :=
            IH _ hszv kv₁.2 kv₂.2 le_rfl hsem
          exact ⟨kv₁, hm₁, by rw [← hke, hdv]⟩
      have hperm : (dumpsEntries l₁).Perm (dumpsEntries l₂) :=
        (List.perm_ext_iff_of_nodup (hndr₁.of_map _) (hndr₂.of_map _)).2 hmem
      have hsort := insertionSort_eq_of_perm hperm hndr₁
      simp [dumps, hsort]

/-- Semantically equal JSON values serialize to the same string. -/
theorem dumps_eq_of_semEq {a b : Json} (h : SemEq a b) : dumps a = dumps b :=
  dumps_semEq_aux (sizeOf a + sizeOf b) a b le_rfl h

/-- Well-formedness of a JSON value as produced by Python: every object
(dict) has pairwise distinct keys. -/
def WfJson : Json → Prop
  | .arr xs => ∀ x ∈ xs, WfJson x
  | .obj l => (l.map Prod.fst).Nodup ∧ ∀ kv ∈ l, WfJson kv.2
  | _ => True
termination_by a => sizeOf a
decreasing_by
  · have := List.sizeOf_lt_of_mem (by assumption : _ ∈ _)
    simp
    omega
  · rename_i hkv
    have := List.sizeOf_lt_of_mem hkv
    obtain ⟨k, v⟩ := kv
    simp at this ⊢
    omega

/-- Semantic equality is reflexive on well-formed JSON values. -/
theorem semEq_refl : ∀ n, ∀ a : Json, sizeOf a ≤ n → WfJson a → SemEq a a := by
  intro n
  induction n using Nat.strong_induction_on with
  | _ n IH =>
    intro a hn hw
    cases a with
    | null => rw [SemEq.eq_def]; trivial
    | bool b => rw [SemEq.eq_def]
    | num q => rw [SemEq.eq_def]
    | str s => rw [SemEq.eq_def]
    | arr xs =>
        rw [WfJson.eq_def] at hw
        rw [SemEq.eq_def]
        refine ⟨rfl, fun p hp => ?_⟩
        have hz : p.1 = p.2 ∧ p.1 ∈ xs := by
          clear hn hw
          induction xs with
          | nil => simp at hp
          | cons x rest ihx =>
              rw [List.zip_cons_cons] at hp
              rcases List.mem_cons.1 hp with h | h
              · subst h
                exact ⟨rfl, List.mem_cons_self _ _⟩
              · obtain ⟨h1, h2⟩ := ihx h
                exact ⟨h1, List.mem_cons_of_mem _ h2⟩
        obtain ⟨hpe, hpm⟩ := hz
        have hsz : sizeOf p.1 < n := by
          have := List.sizeOf_lt_of_mem hpm
          simp at hn
          omega
        rw [← hpe]
        exact IH (sizeOf p.1) hsz p.1 le_rfl (hw p.1 hpm)
    | obj l =>
        rw [WfJson.eq_def] at hw
        obtain ⟨hnd, hv⟩ := hw
        rw [SemEq.eq_def]
        refine ⟨hnd, hnd, fun k => Iff.rfl, fun kv₁ hm₁ kv₂ hm₂ hke => ?_⟩
        have he : kv₁ = kv₂ := by
          have h₁ : kv₁.1 ∈ l.map Prod.fst := List.mem_map.2 ⟨kv₁, hm₁, rfl⟩
          exact List.inj_on_of_nodup_map hnd hm₁ hm₂ hke
        subst he
        have hsz : sizeOf kv₁.2 < n := by
          have := List.sizeOf_lt_of_mem hm₁
          obtain ⟨k, v⟩ := kv₁
          simp at this hn ⊢
          omega
        exact IH (sizeOf kv₁.2) hsz kv₁.2 le_rfl (hv kv₁ hm₁)

/-- A permutation of a well-formed dict is semantically equal to it. -/
theorem semEq_obj_of_perm {l₁ l₂ : List (String × Json)}
    (hw : WfJson (.obj l₁)) (hp : l₁.Perm l₂) : SemEq (.obj l₁) (.obj l₂) := by
  rw [WfJson.eq_def] at hw
  obtain ⟨hnd, hv⟩ := hw
  rw [SemEq.eq_def]
  refine ⟨hnd, ((hp.map Prod.fst).nodup_iff).1 hnd, fun k => ?_, fun kv₁ hm₁ kv₂ hm₂ hke => ?_⟩
  · exact ⟨fun h => (hp.map Prod.fst).mem_iff.1 h, fun h => (hp.map Prod.fst).mem_iff.2 h⟩
  · have hm₂' : kv₂ ∈ l₁ := hp.symm.subset hm₂
    have he : kv₁ = kv₂ := List.inj_on_of_nodup_map hnd hm₁ hm₂' hke
    subst he
    have hwf : WfJson kv₁.2 := hv kv₁ hm₁
    exact semEq_refl (sizeOf kv₁.2) kv₁.2 le_rfl hwf

/-- Scalar JSON values are well-formed. -/
theorem wfJson_num (q : ℚ) : WfJson (.num q) := by
  rw [WfJson.eq_def]
  exact True.intro

/-- C9: for semantically equal payload+context inputs (same keys and
values, regardless of key insertion order), the context hash of
_context_hash is identical, and with it the _cache_key for the same
session, so identical semantic input maps to the same cache entry. -/
theorem context_hash_stable (sid : String) (ctx₁ ctx₂ : List (String × Json))
    (h : SemEq (.obj ctx₁) (.obj ctx₂)) :
    contextHash ctx₁ = contextHash ctx₂ ∧
    cacheKey sid (contextHash ctx₁) = cacheKey sid (contextHash ctx₂) := by
  have hd : dumps (.obj ctx₁) = dumps (.obj ctx₂) := dumps_eq_of_semEq h
  constructor
  · unfold contextHash
    rw [hd]
  · unfold cacheKey contextHash
    rw [hd]

/-- Witness for C9 at a concrete pair of contexts differing only in key
insertion order. -/
theorem context_hash_stable_witness :
    contextHash [("a", Json.num 1), ("b", Json.num 2)] = contextHash [("b", Json.num 2), ("a", Json.num 1)] ∧
    cacheKey "s" (contextHash [("a", Json.num 1), ("b", Json.num 2)]) =
      cacheKey "s" (contextHash [("b", Json.num 2), ("a", Json.num 1)]) := by
  refine context_hash_stable "s" _ _ (semEq_obj_of_perm ?_ ?_)
  · rw [WfJson.eq_def]
    refine ⟨by decide, fun kv hm => ?_⟩
    rcases List.mem_cons.1 hm with h | h
    · subst h
      exact wfJson_num 1
    · rcases List.mem_cons.1 h with h2 | h2
      · subst h2
        exact wfJson_num 2
      · simp at h2
  · exact List.Perm.swap ("b", Json.num 2) ("a", Json.num 1) []

/-- A parsed JSON object (Python dict): the shape of the backend payloads
the controller manipulates.  Backend responses reaching the scoring code
are modelled as dicts, the shape every code path of the repository
produces. -/
abbrev JObj := List (String × Json)

/-- Python truthiness of an optional dict result: present and nonempty
(an absent result is None, and an empty dict is falsy too). -/
def truthy : Option JObj → Bool
  | none => false
  | some kvs => !kvs.isEmpty

/-- First-match association lookup: Python dict get on the unique-key
dicts the code handles (an update is consed in front, so the first match
is the live binding). -/
def jget : JObj → String → Option Json
  | [], _ => none
  | (k, v) :: r, key => if k = key then some v else jget r key

/-- A Python value used in arithmetic: ints and floats are rationals and
bools coerce (True is 1); any other operand raises TypeError, which the
surrounding try block of coordinate_predictions catches. -/
def asNum : Json → Except String ℚ
  | .num q => .ok q
  | .bool b => .ok (if b then 1 else 0)
  | _ => .error "TypeError"

/-- PredictionPipelineController._calculate_coordination_score
(main.py lines 255–273): fixed base contributions 0.3, 0.3 and 0.2 for
truthy results, plus a bonus of claude4 confidence times 0.2 when the
claude4 dict is truthy and carries a confidence key, capped at 1.0.
Raises (TypeError) when a present confidence is not numeric. -/
def calculate_coordination_score (time_presser time_liner claude4 : Option JObj) :
    Except String ℚ := do
  let s₀ : ℚ := 0
  let s₁ := if truthy time_presser then s₀ + 3/10 else s₀
  let s₂ := if truthy time_liner then s₁ + 3/10 else s₁
  let s₃ := if truthy claude4 then s₂ + 1/5 else s₂
  let s₄ ← (match claude4, truthy claude4 with
    | some d, true =>
        (match jget d "confidence" with
         | some c => do
             let q ← asNum c
             pure (s₃ + q * (1/5))
         | none => pure s₃)
    | _, _ => pure s₃)
  pure (min s₄ 1)

/-- Read a nested dict attribute as Python v.get(key, default) does,
raising AttributeError when v is not a dict. -/
def asObj : Json → Except String JObj
  | .obj kvs => .ok kvs
  | _ => .error "AttributeError"

/-- PredictionPipelineController._calculate_temporal_coherence
(main.py lines 275–289): 0.5 when either result is falsy; otherwise the
nested prediction confidences (each defaulting to 0.5) determine
coherence as 1 - |difference|, clamped into [0, 1].  Raises when the
prediction field is not a dict or a confidence is not numeric. -/
def calculate_temporal_coherence (time_presser time_liner : Option JObj) :
    Except String ℚ :=
  if !(truthy time_presser) || !(truthy time_liner) then
    pure (1/2)
  else
    match time_presser, time_liner with
    | some tp, some tl => do
        let tpObj ← asObj ((jget tp "prediction").getD (Json.obj []))
        let tp_confidence ← asNum ((jget tpObj "confidence").getD (Json.num (1/2)))
        let tlObj ← asObj ((jget tl "prediction").getD (Json.obj []))
        let tl_confidence ← asNum ((jget tlObj "confidence").getD (Json.num (1/2)))
        let confidence_diff := |tp_confidence - tl_confidence|
        let coherence := 1 - confidence_diff
        pure (max 0 (min 1 coherence))
    | _, _ => pure (1/2)

/-- The terminal outcome one backend coroutine delivers to asyncio.gather
with return_exceptions=True: either its return value — the parsed JSON of
a 200 response, or None when the endpoint is unconfigured, the status is
not 200, or the adapter caught an exception — or an exception object
captured as a value. -/
inductive Outcome where
  | ok (v : Option JObj) : Outcome
  | exc (msg : String) : Outcome

/-- main.py lines 316–325: an exception surfaced by gather is logged and
replaced by None; plain values pass through. -/
def handleOutcome : Outcome → Option JObj
  | .ok v => v
  | .exc _ => none

/-- Surface of _claude4_analysis (main.py lines 172–253): None unless
Claude is enabled and a client was constructed; otherwise whatever the
interaction produced — parsed JSON, the fallback analysis-text dict, or
None when the catch-all except fired.  The body never raises: it is
wrapped in try/except returning None. -/
def claude4_analysis_call (claude4_enabled claude4_client : Bool)
    (result : Option JObj) : Option JObj :=
  if claude4_enabled && claude4_client then result else none

/-- PipelineResponse (main.py lines 47–57) with its field defaults. -/
structure PipelineResponse where
  session_id : String
  timestamp : String
  time_presser_prediction : Option JObj := none
  time_liner_prediction : Option JObj := none
  claude4_analysis : Option JObj := none
  coordination_score : ℚ := 0
  temporal_coherence : ℚ := 0
  pipeline_status : String := "processing"

/-- PredictionRequest (main.py lines 36–45) with its field defaults. -/
structure PredictionRequest where
  session_id : String
  mission_context : JObj
  time_presser_priority : ℚ := 7/10
  time_liner_priority : ℚ := 6/10
  claude4_integration : Bool := true
  temporal_acceleration : ℚ := 1
  strategic_horizon : Int := 90

/-- The prediction cache: cache_key to (response, insertion time).  A
dict assignment is modelled by consing the new binding, and lookup takes
the first match, which is exactly the visible dict behaviour. -/
abbrev Cache := List (String × PipelineResponse × ℚ)

/-- Association lookup in the cache. -/
def entryAt : Cache → String → Option (PipelineResponse × ℚ)
  | [], _ => none
  | (k, e) :: r, key => if k = key then some e else entryAt r key

/-- main.py lines 302–307: under the coordination lock, a cached entry is
returned only when present and now - cache_time < cache_ttl; an expired
entry is left in place and ignored. -/
def cacheLookup (cache : Cache) (key : String) (now ttl : ℚ) : Option PipelineResponse :=
  match entryAt cache key with
  | some (r, t) => if now - t < ttl then some r else none
  | none => none

/-- Controller configuration read from the environment at start-up. -/
structure Env where
  cache_ttl : ℚ
  claude4_enabled : Bool
  claude4_client : Bool

/-- External events of one coordinate_predictions run: the timestamp
string, the wall clock at the cache check, both backend outcomes, what
the Claude interaction produces if invoked, and the wall clock at the
cache store. -/
structure RunEvents where
  timestamp : String
  now : ℚ
  drLucy : Outcome
  dreamCommander : Outcome
  claudeResult : Option JObj
  storeTime : ℚ

/-- Observable result of one coordinate_predictions call: the response,
the cache left behind, and instrumentation recording whether the fan-out
ran and whether the Claude stage was invoked. -/
structure CoordResult where
  response : PipelineResponse
  cache : Cache
  fanoutRan : Bool
  claudeInvoked : Bool

/-- The try block of coordinate_predictions (main.py lines 309–353):
gather both backends, replace captured exceptions with None, invoke the
Claude stage exactly when claude4_integration is set, compute both
scores (each can raise on ill-typed payloads, which propagates to the
except clause), and build the response, whose status is completed when
any backend result is truthy and failed otherwise. -/
def coordinateBody (env : Env) (req : PredictionRequest) (ev : RunEvents) :
    Except String PipelineResponse := do
  let time_presser_result := handleOutcome ev.drLucy
  let time_liner_result := handleOutcome ev.dreamCommander
  let claude4_result :=
    if req.claude4_integration then
      claude4_analysis_call env.claude4_enabled env.claude4_client ev.claudeResult
    else none
  let coordination_score ←
    calculate_coordination_score time_presser_result time_liner_result claude4_result
  let temporal_coherence ←
    calculate_temporal_coherence time_presser_result time_liner_result
  pure {
    session_id := req.session_id
    timestamp := ev.timestamp
    time_presser_prediction := time_presser_result
    time_liner_prediction := time_liner_result
    claude4_analysis := claude4_result
    coordination_score := coordination_score
    temporal_coherence := temporal_coherence
    pipeline_status :=
      if truthy time_presser_result || truthy time_liner_result then "completed" else "failed" }

/-- coordinate_predictions (main.py lines 291–370): cache check first;
on a fresh hit the cached response is returned unchanged; on a miss the
body runs — a raised exception yields the bare error response (all
predictions None, both scores 0.0, status error) and leaves the cache
untouched, while a composed response is stored in the cache under the
same lock regardless of whether its status is completed or failed. -/
def coordinate_predictions (env : Env) (req : PredictionRequest) (cache : Cache)
    (ev : RunEvents) : CoordResult :=
  let cache_key := cacheKey req.session_id (contextHash req.mission_context)
  match cacheLookup cache cache_key ev.now env.cache_ttl with
  | some cached => ⟨cached, cache, false, false⟩
  | none =>
      match coordinateBody env req ev with
      | .ok resp => ⟨resp, (cache_key, resp, ev.storeTime) :: cache, true, req.claude4_integration⟩
      | .error _ =>
          ⟨{ session_id := req.session_id, timestamp := ev.timestamp, pipeline_status := "error" },
           cache, true, req.claude4_integration⟩

/-- An absent result is falsy. -/
theorem truthy_none : truthy none = false := rfl

/-- The claude-confidence bonus term of the coordination score: confidence
times 0.2 when the truthy claude4 dict carries a confidence key, zero
otherwise; raises on a non-numeric confidence. -/
def confidenceBonus (claude4 : Option JObj) : Except String ℚ :=
  match claude4, truthy claude4 with
  | some d, true =>
      (match jget d "confidence" with
       | some c => do
           let q ← asNum c
           pure (q * (1/5))
       | none => pure 0)
  | _, _ => pure 0

/-- C1 counterexample: in the spec scenario — first two backends succeed,
the third fails — the code computes 0.6 from its fixed 0.3/0.3/0.2
contributions, which differs from the claimed weighted success sum
0.4·1 + 0.3·1 + 0.3·0 = 0.7. -/
theorem coordination_score_not_weighted_sum :
    calculate_coordination_score (some [("prediction", Json.obj [("confidence", Json.num (9/10))])])
      (some [("prediction", Json.obj [("confidence", Json.num (7/10))])]) none = .ok (3/5) ∧
    ((3 : ℚ)/5 ≠ 4/10 * 1 + 3/10 * 1 + 3/10 * 0) := by
  constructor
  · simp [calculate_coordination_score, truthy, bind, Except.bind, pure, Except.pure]
    norm_num
  · norm_num

/-- C1 amended: the coordination score is min(1, 0.3·[tp truthy] +
0.3·[tl truthy] + 0.2·[c4 truthy] + bonus) with the claude-confidence
bonus of confidence·0.2; with a well-typed nonnegative bonus the score
is total and lies in [0, 1]. -/
theorem coordination_score_fixed_weights (tp tl c4 : Option JObj) (q : ℚ)
    (hb : confidenceBonus c4 = .ok q) (hq : 0 ≤ q) :
    calculate_coordination_score tp tl c4 =
      .ok (min ((if truthy tp then (3 : ℚ)/10 else 0) +
                (if truthy tl then (3 : ℚ)/10 else 0) +
                (if truthy c4 then (1 : ℚ)/5 else 0) + q) 1) ∧
    (∀ s, calculate_coordination_score tp tl c4 = .ok s → 0 ≤ s ∧ s ≤ 1) := by
  have hform : calculate_coordination_score tp tl c4 =
      .ok (min ((if truthy tp then (3 : ℚ)/10 else 0) +
                (if truthy tl then (3 : ℚ)/10 else 0) +
                (if truthy c4 then (1 : ℚ)/5 else 0) + q) 1) := by
    unfold confidenceBonus at hb
    unfold calculate_coordination_score
    cases hc4 : c4 with
    | none =>
        rw [hc4] at hb
        simp [pure, Except.pure] at hb
        subst hb
        simp only [truthy_none, bind, Except.bind, pure, Except.pure, if_false,
          Bool.false_eq_true]
        refine congrArg Except.ok (congrArg (fun z => min z 1) ?_)
        cases htp : truthy tp <;> cases htl : truthy tl <;> simp [htp, htl]
    | some d =>
        rw [hc4] at hb
        cases ht : truthy (some d) with
        | false =>
            simp only [ht] at hb
            simp [pure, Except.pure] at hb
            subst hb
            simp only [ht, bind, Except.bind, pure, Except.pure, if_false, Bool.false_eq_true]
            refine congrArg Except.ok (congrArg (fun z => min z 1) ?_)
            cases htp : truthy tp <;> cases htl : truthy tl <;> simp [htp, htl]
        | true =>
            cases hg : jget d "confidence" with
            | none =>
                simp only [ht, hg] at hb
                simp [pure, Except.pure] at hb
                subst hb
                simp only [ht, hg, bind, Except.bind, pure, Except.pure, if_true]
                refine congrArg Except.ok (congrArg (fun z => min z 1) ?_)
                cases htp : truthy tp <;> cases htl : truthy tl <;> simp [htp, htl]
            | some c =>
                cases ha : asNum c with
                | error e =>
                    simp only [ht, hg, ha] at hb
                    simp [Except.bind, bind] at hb
                | ok qc =>
                    simp only [ht, hg, ha] at hb
                    simp [bind, Except.bind, pure, Except.pure] at hb
                    subst hb
                    simp only [ht, hg, ha, bind, Except.bind, pure, Except.pure, if_true]
                    refine congrArg Except.ok (congrArg (fun z => min z 1) ?_)
                    cases htp : truthy tp <;> cases htl : truthy tl <;> simp [htp, htl]
  refine ⟨hform, fun s hs => ?_⟩
  rw [hform] at hs
  have hs' : s = min ((if truthy tp then (3 : ℚ)/10 else 0) +
                (if truthy tl then (3 : ℚ)/10 else 0) +
                (if truthy c4 then (1 : ℚ)/5 else 0) + q) 1 := by
    injection hs.symm
  subst hs'
  constructor
  · refine le_min ?_ (by norm_num)
    have h1 : (0 : ℚ) ≤ if truthy tp then (3 : ℚ)/10 else 0 := by positivity
    have h2 : (0 : ℚ) ≤ if truthy tl then (3 : ℚ)/10 else 0 := by positivity
    have h3 : (0 : ℚ) ≤ if truthy c4 then (1 : ℚ)/5 else 0 := by positivity
    linarith
  · exact min_le_right _ _

/-- Witness for the amended C1 at a concrete triple: one truthy backend,
one absent backend, a truthy claude result with confidence 0.8. -/
theorem coordination_score_fixed_weights_witness :
    calculate_coordination_score (some [("prediction", Json.null)]) none
      (some [("confidence", Json.num (8/10))]) =
      .ok (min ((if truthy (some [("prediction", Json.null)]) then (3 : ℚ)/10 else 0) +
                (if truthy (none : Option JObj) then (3 : ℚ)/10 else 0) +
                (if truthy (some [("confidence", Json.num (8/10))]) then (1 : ℚ)/5 else 0) +
                8/10 * (1/5)) 1) ∧
    (∀ s, calculate_coordination_score (some [("prediction", Json.null)]) none
      (some [("confidence", Json.num (8/10))]) = .ok s → 0 ≤ s ∧ s ≤ 1) :=
  coordination_score_fixed_weights (some [("prediction", Json.null)]) none
    (some [("confidence", Json.num (8/10))]) (8/10 * (1/5))
    (by simp [confidenceBonus, truthy, jget, asNum, bind, Except.bind, pure, Except.pure])
    (by norm_num)

/-- The nested confidence the coherence calculation reads from one truthy
backend result: result.get("prediction", empty).get("confidence", 0.5);
raises when the prediction field is not a dict or the confidence is not
numeric. -/
def confOf (d : JObj) : Except String ℚ := do
  let o ← asObj ((jget d "prediction").getD (Json.obj []))
  asNum ((jget o "confidence").getD (Json.num (1/2)))

/-- C8 counterexample: both backends succeed but neither carries a
confidence — zero successful non-null confidences, fewer than two — yet
the coherence is 1.0, not the claimed default 0.5, because both missing
confidences default to 0.5 and agree exactly. -/
theorem temporal_coherence_default_counterexample :
    calculate_temporal_coherence (some [("outcome", Json.str "ok")])
      (some [("outcome", Json.str "ok")]) = .ok 1 ∧ (1 : ℚ) ≠ 1/2 := by
  constructor
  · simp [calculate_temporal_coherence, truthy, jget, asObj, asNum, bind, Except.bind,
      pure, Except.pure]
  · norm_num

/-- C8 amended: the coherence is 0.5 exactly when at least one backend
result is falsy (absent or an empty dict); with two truthy results whose
extracted confidences are q₁ and q₂ (each defaulting to 0.5 when the key
is missing) it is 1 - |q₁ - q₂| clamped into [0, 1]. -/
theorem temporal_coherence_formula (tp tl : Option JObj) :
    ((truthy tp = false ∨ truthy tl = false) →
      calculate_temporal_coherence tp tl = .ok (1/2)) ∧
    (∀ dtp dtl q₁ q₂, tp = some dtp → tl = some dtl →
      truthy tp = true → truthy tl = true →
      confOf dtp = .ok q₁ → confOf dtl = .ok q₂ →
      calculate_temporal_coherence tp tl = .ok (max 0 (min 1 (1 - |q₁ - q₂|)))) := by
  constructor
  · intro h
    unfold calculate_temporal_coherence
    rcases h with h | h <;> simp [h, pure, Except.pure]
  · rintro dtp dtl q₁ q₂ rfl rfl htp htl h₁ h₂
    unfold confOf at h₁ h₂
    unfold calculate_temporal_coherence
    simp only [htp, htl, Bool.not_true, Bool.or_self, Bool.false_eq_true, if_false]
    cases ho₁ : asObj ((jget dtp "prediction").getD (Json.obj [])) with
    | error e =>
        rw [ho₁] at h₁
        simp [bind, Except.bind] at h₁
    | ok o₁ =>
        rw [ho₁] at h₁
        simp only [bind, Except.bind] at h₁
        cases ho₂ : asObj ((jget dtl "prediction").getD (Json.obj [])) with
        | error e =>
            rw [ho₂] at h₂
            simp [bind, Except.bind] at h₂
        | ok o₂ =>
            rw [ho₂] at h₂
            simp only [bind, Except.bind] at h₂
            simp only [ho₁, ho₂, h₁, h₂, bind, Except.bind, pure, Except.pure]

/-- Witness for the amended C8: an absent backend yields 0.5, and two
truthy backends with confidences 0.9 and 0.7 yield 0.8. -/
theorem temporal_coherence_formula_witness :
    calculate_temporal_coherence none (some [("x", Json.null)]) = .ok (1/2) ∧
    calculate_temporal_coherence
      (some [("prediction", Json.obj [("confidence", Json.num (9/10))])])
      (some [("prediction", Json.obj [("confidence", Json.num (7/10))])]) =
      .ok (max 0 (min 1 (1 - |(9 : ℚ)/10 - 7/10|))) := by
  constructor
  · exact (temporal_coherence_formula none (some [("x", Json.null)])).1 (Or.inl rfl)
  · exact (temporal_coherence_formula _ _).2
      [("prediction", Json.obj [("confidence", Json.num (9/10))])]
      [("prediction", Json.obj [("confidence", Json.num (7/10))])]
      (9/10) (7/10) rfl rfl rfl rfl rfl rfl

/-- C3 counterexample: a timeout and a connection failure — distinct
failures that the claim says are classified as Timeout or Error with
detail — are both recorded as the bare value None, indistinguishable and
carrying neither classification nor detail. -/
theorem backend_failure_detail_lost :
    handleOutcome (Outcome.exc "TimeoutError") = handleOutcome (Outcome.exc "ConnectionError") ∧
    handleOutcome (Outcome.exc "TimeoutError") = none ∧
    "TimeoutError" ≠ "ConnectionError" := ⟨rfl, rfl, by decide⟩

/-- C3 amended: on a cache miss whose body composes a response, the
response carries exactly one result slot per backend — each equal to the
gathered outcome with exceptions replaced by None — and an exception
never propagates past the gather: it is always recorded as None, with no
Error/Timeout classification and no detail. -/
theorem fanout_one_result_per_backend (env : Env) (req : PredictionRequest)
    (cache : Cache) (ev : RunEvents) (resp : PipelineResponse)
    (hmiss : cacheLookup cache (cacheKey req.session_id (contextHash req.mission_context))
      ev.now env.cache_ttl = none)
    (hok : coordinateBody env req ev = .ok resp) :
    (coordinate_predictions env req cache ev).response.time_presser_prediction =
      handleOutcome ev.drLucy ∧
    (coordinate_predictions env req cache ev).response.time_liner_prediction =
      handleOutcome ev.dreamCommander ∧
    (∀ m, handleOutcome (Outcome.exc m) = none) := by
  have hresp : (coordinate_predictions env req cache ev).response = resp := by
    unfold coordinate_predictions
    simp only [hmiss, hok]
  unfold coordinateBody at hok
  cases hcs : calculate_coordination_score (handleOutcome ev.drLucy)
      (handleOutcome ev.dreamCommander)
      (if req.claude4_integration = true then
        claude4_analysis_call env.claude4_enabled env.claude4_client ev.claudeResult
      else none) with
  | error e => simp [hcs, bind, Except.bind] at hok
  | ok s =>
      cases hct : calculate_temporal_coherence (handleOutcome ev.drLucy)
          (handleOutcome ev.dreamCommander) with
      | error e => simp [hcs, hct, bind, Except.bind] at hok
      | ok t =>
          simp only [hcs, hct, bind, Except.bind, pure, Except.pure] at hok
          injection hok with hok
          rw [hresp, ← hok]
          exact ⟨rfl, rfl, fun m => rfl⟩

/-- The most recent binding stored under a key is what lookup finds. -/
theorem entryAt_cons_self (k : String) (e : PipelineResponse × ℚ) (c : Cache) :
    entryAt ((k, e) :: c) k = some e := by
  simp [entryAt]

/-- C4: a cache entry (r, t) is returned only while now - t < ttl — so
never once now exceeds t + ttl — and once now > t + ttl the lookup is a
miss and coordinate_predictions runs the fan-out afresh. -/
theorem cache_ttl_never_returns_expired (env : Env) (req : PredictionRequest)
    (cache : Cache) (ev : RunEvents) (r : PipelineResponse) (t : ℚ)
    (hentry : entryAt cache (cacheKey req.session_id (contextHash req.mission_context)) =
      some (r, t)) :
    (∀ r', cacheLookup cache (cacheKey req.session_id (contextHash req.mission_context))
        ev.now env.cache_ttl = some r' → ev.now ≤ t + env.cache_ttl) ∧
    (ev.now > t + env.cache_ttl →
      cacheLookup cache (cacheKey req.session_id (contextHash req.mission_context))
        ev.now env.cache_ttl = none ∧
      (coordinate_predictions env req cache ev).fanoutRan = true) := by
  constructor
  · intro r' hr'
    unfold cacheLookup at hr'
    rw [hentry] at hr'
    by_cases hlt : ev.now - t < env.cache_ttl
    · linarith
    · simp [hlt] at hr'
  · intro hexp
    have hmiss : cacheLookup cache
        (cacheKey req.session_id (contextHash req.mission_context))
        ev.now env.cache_ttl = none := by
      unfold cacheLookup
      rw [hentry]
      have : ¬ (ev.now - t < env.cache_ttl) := by linarith
      simp [this]
    refine ⟨hmiss, ?_⟩
    unfold coordinate_predictions
    simp only [hmiss]
    cases hb : coordinateBody env req ev <;> simp [hb]

/-- Witness for C4: a concrete entry inserted at t = 0 with ttl 100,
queried at now = 150, is a miss and the fan-out runs. -/
theorem cache_ttl_never_returns_expired_witness :
    cacheLookup [(cacheKey "s" (contextHash []),
        { session_id := "s", timestamp := "t0" }, 0)]
      (cacheKey "s" (contextHash [])) 150 100 = none ∧
    (coordinate_predictions ⟨100, false, false⟩
      { session_id := "s", mission_context := [] }
      [(cacheKey "s" (contextHash []), { session_id := "s", timestamp := "t0" }, 0)]
      { timestamp := "t1", now := 150, drLucy := .exc "down",
        dreamCommander := .exc "down", claudeResult := none,
        storeTime := 151 }).fanoutRan = true := by
  have h := cache_ttl_never_returns_expired ⟨100, false, false⟩
    { session_id := "s", mission_context := [] }
    [(cacheKey "s" (contextHash []), { session_id := "s", timestamp := "t0" }, 0)]
    { timestamp := "t1", now := 150, drLucy := .exc "down",
      dreamCommander := .exc "down", claudeResult := none, storeTime := 151 }
    { session_id := "s", timestamp := "t0" } 0
    (entryAt_cons_self _ _ _)
  exact h.2 (by norm_num)

/-- C5 counterexample: with both backends failing and the Claude stage
disabled for the request, the composed response has status failed — no
backend succeeded — yet coordinate_predictions stores it in the cache. -/
theorem failed_composition_cached :
    (coordinate_predictions ⟨300, true, true⟩
      { session_id := "s", mission_context := [], claude4_integration := false } []
      { timestamp := "t", now := 0, drLucy := .exc "boom",
        dreamCommander := .exc "boom2", claudeResult := none,
        storeTime := 5 }).response.pipeline_status = "failed" ∧
    entryAt (coordinate_predictions ⟨300, true, true⟩
      { session_id := "s", mission_context := [], claude4_integration := false } []
      { timestamp := "t", now := 0, drLucy := .exc "boom",
        dreamCommander := .exc "boom2", claudeResult := none,
        storeTime := 5 }).cache (cacheKey "s" (contextHash [])) =
      some ((coordinate_predictions ⟨300, true, true⟩
        { session_id := "s", mission_context := [], claude4_integration := false } []
        { timestamp := "t", now := 0, drLucy := .exc "boom",
          dreamCommander := .exc "boom2", claudeResult := none,
          storeTime := 5 }).response, 5) := by
  constructor
  · rfl
  · exact entryAt_cons_self _ _ _

/-- C5 amended: every composition that completes without raising is
stored in the cache under the request fingerprint with the store-time
clock — with status failed just as with status completed; only the
exception path skips the store. -/
theorem response_cached_even_when_failed (env : Env) (req : PredictionRequest)
    (cache : Cache) (ev : RunEvents) (resp : PipelineResponse)
    (hmiss : cacheLookup cache (cacheKey req.session_id (contextHash req.mission_context))
      ev.now env.cache_ttl = none)
    (hok : coordinateBody env req ev = .ok resp) :
    (coordinate_predictions env req cache ev).cache =
      (cacheKey req.session_id (contextHash req.mission_context), resp, ev.storeTime) :: cache := by
  unfold coordinate_predictions
  simp only [hmiss, hok]

/-- C7 counterexample: with claude4_integration left at its default true,
the Claude stage is invoked even though both backends failed — zero
successes — contradicting the claim that it runs only when at least one
backend succeeded. -/
theorem claude_invoked_without_success :
    (coordinate_predictions ⟨300, true, true⟩
      { session_id := "s", mission_context := [] } []
      { timestamp := "t", now := 0, drLucy := .exc "down",
        dreamCommander := .exc "down", claudeResult := none,
        storeTime := 1 }).claudeInvoked = true ∧
    handleOutcome (Outcome.exc "down") = none := by
  exact ⟨rfl, rfl⟩

/-- C7 amended: on a cache miss the Claude stage is invoked exactly when
the request sets claude4_integration, regardless of backend successes;
the stage itself yields None unless Claude is enabled with a client; and
its outcome never changes the composed status, which depends only on
backend truthiness — a Claude failure is recorded as None while the
response still composes. -/
theorem claude_stage_policy (env : Env) (req : PredictionRequest)
    (cache : Cache) (ev : RunEvents)
    (hmiss : cacheLookup cache (cacheKey req.session_id (contextHash req.mission_context))
      ev.now env.cache_ttl = none) :
    (coordinate_predictions env req cache ev).claudeInvoked = req.claude4_integration ∧
    (env.claude4_enabled = false ∨ env.claude4_client = false →
      claude4_analysis_call env.claude4_enabled env.claude4_client ev.claudeResult = none) ∧
    (∀ resp, coordinateBody env req ev = .ok resp →
      resp.claude4_analysis = (if req.claude4_integration then
        claude4_analysis_call env.claude4_enabled env.claude4_client ev.claudeResult
      else none) ∧
      resp.pipeline_status = (if truthy (handleOutcome ev.drLucy) ||
        truthy (handleOutcome ev.dreamCommander) then "completed" else "failed")) := by
  refine ⟨?_, ?_, ?_⟩
  · unfold coordinate_predictions
    simp only [hmiss]
    cases hb : coordinateBody env req ev <;> simp [hb]
  · intro h
    unfold claude4_analysis_call
    rcases h with h | h <;> simp [h]
  · intro resp hok
    unfold coordinateBody at hok
    cases hcs : calculate_coordination_score (handleOutcome ev.drLucy)
        (handleOutcome ev.dreamCommander)
        (if req.claude4_integration = true then
          claude4_analysis_call env.claude4_enabled env.claude4_client ev.claudeResult
        else none) with
    | error e => simp [hcs, bind, Except.bind] at hok
    | ok s =>
        cases hct : calculate_temporal_coherence (handleOutcome ev.drLucy)
            (handleOutcome ev.dreamCommander) with
        | error e => simp [hcs, hct, bind, Except.bind] at hok
        | ok t =>
            simp only [hcs, hct, bind, Except.bind, pure, Except.pure] at hok
            injection hok with hok
            rw [← hok]
            exact ⟨rfl, rfl⟩

/-- C10: when the body raises after the cache miss, the caller receives
the bare error response — session and timestamp set, every prediction
field None, both scores 0.0, status error — and the cache is exactly as
it was: nothing added, overwritten or removed. -/
theorem error_path_preserves_cache (env : Env) (req : PredictionRequest)
    (cache : Cache) (ev : RunEvents) (e : String)
    (hmiss : cacheLookup cache (cacheKey req.session_id (contextHash req.mission_context))
      ev.now env.cache_ttl = none)
    (herr : coordinateBody env req ev = .error e) :
    (coordinate_predictions env req cache ev).response =
      { session_id := req.session_id, timestamp := ev.timestamp,
        pipeline_status := "error" } ∧
    (coordinate_predictions env req cache ev).response.time_presser_prediction = none ∧
    (coordinate_predictions env req cache ev).response.time_liner_prediction = none ∧
    (coordinate_predictions env req cache ev).response.claude4_analysis = none ∧
    (coordinate_predictions env req cache ev).response.coordination_score = 0 ∧
    (coordinate_predictions env req cache ev).response.temporal_coherence = 0 ∧
    (coordinate_predictions env req cache ev).response.pipeline_status = "error" ∧
    (coordinate_predictions env req cache ev).cache = cache := by
  have hc : coordinate_predictions env req cache ev =
      ⟨{ session_id := req.session_id, timestamp := ev.timestamp,
         pipeline_status := "error" }, cache, true, req.claude4_integration⟩ := by
    unfold coordinate_predictions
    simp only [hmiss, herr]
  rw [hc]
  exact ⟨rfl, rfl, rfl, rfl, rfl, rfl, rfl, rfl⟩

/-- Witness for the amended C3 at a run whose backends both raise. -/
theorem fanout_one_result_per_backend_witness :
    (coordinate_predictions ⟨300, false, true⟩
      { session_id := "s", mission_context := [] } []
      { timestamp := "t", now := 0, drLucy := .exc "down",
        dreamCommander := .exc "timeout", claudeResult := none,
        storeTime := 1 }).response.time_presser_prediction =
      handleOutcome (Outcome.exc "down") ∧
    (coordinate_predictions ⟨300, false, true⟩
      { session_id := "s", mission_context := [] } []
      { timestamp := "t", now := 0, drLucy := .exc "down",
        dreamCommander := .exc "timeout", claudeResult := none,
        storeTime := 1 }).response.time_liner_prediction =
      handleOutcome (Outcome.exc "timeout") := by
  have h := fanout_one_result_per_backend ⟨300, false, true⟩
    { session_id := "s", mission_context := [] } []
    { timestamp := "t", now := 0, drLucy := .exc "down",
      dreamCommander := .exc "timeout", claudeResult := none, storeTime := 1 }
    { session_id := "s", timestamp := "t", time_presser_prediction := none,
      time_liner_prediction := none, claude4_analysis := none,
      coordination_score := 0, temporal_coherence := 1/2,
      pipeline_status := "failed" } rfl (by rfl)
  exact ⟨h.1, h.2.1⟩

/-- Witness for the amended C5: the failed response of a concrete run is
stored in the cache at the store-time clock. -/
theorem response_cached_even_when_failed_witness :
    (coordinate_predictions ⟨300, false, true⟩
      { session_id := "s", mission_context := [] } []
      { timestamp := "t", now := 0, drLucy := .exc "down",
        dreamCommander := .exc "timeout", claudeResult := none,
        storeTime := 1 }).cache =
      (cacheKey "s" (contextHash []),
       { session_id := "s", timestamp := "t", time_presser_prediction := none,
         time_liner_prediction := none, claude4_analysis := none,
         coordination_score := 0, temporal_coherence := 1/2,
         pipeline_status := "failed" }, 1) :: [] :=
  response_cached_even_when_failed ⟨300, false, true⟩
    { session_id := "s", mission_context := [] } []
    { timestamp := "t", now := 0, drLucy := .exc "down",
      dreamCommander := .exc "timeout", claudeResult := none, storeTime := 1 }
    { session_id := "s", timestamp := "t", time_presser_prediction := none,
      time_liner_prediction := none, claude4_analysis := none,
      coordination_score := 0, temporal_coherence := 1/2,
      pipeline_status := "failed" } rfl (by rfl)

/-- Witness for the amended C7 at a run with Claude disabled in the
environment and both backends failing. -/
theorem claude_stage_policy_witness :
    (coordinate_predictions ⟨300, false, true⟩
      { session_id := "s", mission_context := [] } []
      { timestamp := "t", now := 0, drLucy := .exc "down",
        dreamCommander := .exc "down", claudeResult := none,
        storeTime := 1 }).claudeInvoked = true ∧
    claude4_analysis_call false true none = none ∧
    ({ session_id := "s", timestamp := "t", time_presser_prediction := none,
       time_liner_prediction := none, claude4_analysis := none,
       coordination_score := 0, temporal_coherence := 1/2,
       pipeline_status := "failed" } : PipelineResponse).pipeline_status =
      (if truthy (handleOutcome (Outcome.exc "down")) ||
          truthy (handleOutcome (Outcome.exc "down")) then "completed" else "failed") := by
  have h := claude_stage_policy ⟨300, false, true⟩
    { session_id := "s", mission_context := [] } []
    { timestamp := "t", now := 0, drLucy := .exc "down",
      dreamCommander := .exc "down", claudeResult := none, storeTime := 1 } rfl
  exact ⟨h.1, h.2.1 (Or.inl rfl), (h.2.2 _ (by rfl)).2⟩

/-- Witness for C10 at a run whose coherence calculation raises on a
non-dict prediction field: the caller sees the bare error response and
the empty cache stays empty. -/
theorem error_path_preserves_cache_witness :
    (coordinate_predictions ⟨300, false, false⟩
      { session_id := "s", mission_context := [] } []
      { timestamp := "t", now := 0,
        drLucy := .ok (some [("prediction", Json.str "x")]),
        dreamCommander := .ok (some [("y", Json.null)]), claudeResult := none,
        storeTime := 1 }).response =
      { session_id := "s", timestamp := "t", pipeline_status := "error" } ∧
    (coordinate_predictions ⟨300, false, false⟩
      { session_id := "s", mission_context := [] } []
      { timestamp := "t", now := 0,
        drLucy := .ok (some [("prediction", Json.str "x")]),
        dreamCommander := .ok (some [("y", Json.null)]), claudeResult := none,
        storeTime := 1 }).cache = [] := by
  have h := error_path_preserves_cache ⟨300, false, false⟩
    { session_id := "s", mission_context := [] } []
    { timestamp := "t", now := 0,
      drLucy := .ok (some [("prediction", Json.str "x")]),
      dreamCommander := .ok (some [("y", Json.null)]), claudeResult := none,
      storeTime := 1 } "AttributeError" rfl (by rfl)
  exact ⟨h.1, h.2.2.2.2.2.2.2⟩

/-- Phase of one request thread in the single-flight analysis of
coordinate_predictions for a shared fingerprint: before its locked cache
lookup, after a miss (fan-out in progress), served from the cache, or
finished after computing and storing. -/
inductive SFPhase where
  | start
  | missed
  | hitDone
  | computedDone

/-- Shared state of N concurrent coordinate_predictions calls carrying
the same cache key: whether the cache holds the key, how many times the
fan-out has executed, and each thread's phase.  The code holds the
coordination lock only around the lookup (lines 302–307) and the store
(lines 356–357), never across the fan-out, so lookup and compute+store
are separate atomic events that interleave freely between threads. -/
structure SFState where
  cacheFilled : Bool
  computeCount : Nat
  phases : List SFPhase

/-- An atomic step: thread i performs its locked cache lookup, or thread
i finishes its fan-out and performs its locked store. -/
inductive SFEvent where
  | lookup (i : Nat)
  | computeStore (i : Nat)

/-- The phase of thread i. -/
def phaseAt (s : SFState) (i : Nat) : SFPhase := s.phases.getD i .start

/-- One transition of the interleaving semantics. -/
def sfStep (s : SFState) (e : SFEvent) : SFState :=
  match e with
  | .lookup i =>
      match phaseAt s i with
      | .start =>
          if s.cacheFilled then { s with phases := s.phases.set i .hitDone }
          else { s with phases := s.phases.set i .missed }
      | _ => s
  | .computeStore i =>
      match phaseAt s i with
      | .missed =>
          { cacheFilled := true, computeCount := s.computeCount + 1,
            phases := s.phases.set i .computedDone }
      | _ => s

/-- N identical concurrent requests, none yet started, cold cache. -/
def sfInit (n : Nat) : SFState := ⟨false, 0, List.replicate n .start⟩

/-- Run a schedule of interleaved events. -/
def sfRun (n : Nat) (es : List SFEvent) : SFState := es.foldl sfStep (sfInit n)

/-- C2 counterexample: two concurrent requests with the same fingerprint
whose locked lookups both happen before either store — the interleaving
the code permits because no in-flight registry exists — each execute the
fan-out: the compute runs twice, not exactly once as claimed. -/
theorem no_single_flight :
    (sfRun 2 [.lookup 0, .lookup 1, .computeStore 0, .computeStore 1]).computeCount = 2 ∧
    (2 : Nat) ≠ 1 := ⟨rfl, by decide⟩

/-- C2 amended: the controller deduplicates only through the cache after
a completed store.  Under the sequential schedule the second request is
served from the cache and the fan-out runs once; under the overlapping
schedule, where both lookups precede either store, the fan-out runs once
per request. -/
theorem dedup_only_after_store :
    (sfRun 2 [.lookup 0, .computeStore 0, .lookup 1, .computeStore 1]).computeCount = 1 ∧
    phaseAt (sfRun 2 [.lookup 0, .computeStore 0, .lookup 1, .computeStore 1]) 1 =
      SFPhase.hitDone ∧
    (sfRun 2 [.lookup 0, .lookup 1, .computeStore 0, .computeStore 1]).computeCount = 2 :=
  ⟨rfl, rfl, rfl⟩

/-- JSON whitespace. -/
def isJsonWs (c : Char) : Bool := c = ' ' || c = '\t' || c = '\n' || c = '\r'

/-- Drop leading JSON whitespace. -/
def skipWs : List Char → List Char
  | [] => []
  | c :: r => if isJsonWs c then skipWs r else c :: r

/-- One hexadecimal digit of a \uXXXX escape. -/
def parseHexDigit (c : Char) : Option Nat :=
  if '0' ≤ c ∧ c ≤ '9' then some (c.toNat - 48)
  else if 'a' ≤ c ∧ c ≤ 'f' then some (c.toNat - 87)
  else if 'A' ≤ c ∧ c ≤ 'F' then some (c.toNat - 55)
  else none

/-- The two-character string escapes JSON accepts. -/
def escMap (c : Char) : Option Char :=
  if c = '"' then some '"'
  else if c = '\\' then some '\\'
  else if c = '/' then some '/'
  else if c = 'b' then some (Char.ofNat 8)
  else if c = 'f' then some (Char.ofNat 12)
  else if c = 'n' then some '\n'
  else if c = 'r' then some '\r'
  else if c = 't' then some '\t'
  else none

/-- Parse the remainder of a JSON string literal after the opening
quote, handling the escapes; surrogate-pair recombination is out of
scope of the claims. -/
def parseJString : List Char → Option (String × List Char)
  | [] => none
  | c :: r =>
    if c = '"' then some ("", r)
    else if c = '\\' then
      match r with
      | [] => none
      | e :: r₁ =>
        if e = 'u' then
          match r₁ with
          | h1 :: h2 :: h3 :: h4 :: r₂ => do
              let d1 ← parseHexDigit h1
              let d2 ← parseHexDigit h2
              let d3 ← parseHexDigit h3
              let d4 ← parseHexDigit h4
              let (s, rest) ← parseJString r₂
              pure (String.singleton (Char.ofNat (4096 * d1 + 256 * d2 + 16 * d3 + d4)) ++ s,
                rest)
          | _ => none
        else do
          let ec ← escMap e
          let (s, rest) ← parseJString r₁
          pure (String.singleton ec ++ s, rest)
    else do
      let (s, rest) ← parseJString r
      pure (String.singleton c ++ s, rest)

/-- Split off a maximal run of decimal digits. -/
def takeDigits : List Char → (List Char × List Char)
  | [] => ([], [])
  | c :: r =>
      if c.isDigit then
        let (ds, rest) := takeDigits r
        (c :: ds, rest)
      else ([], c :: r)

/-- Decimal value of a digit run. -/
def digitsToNat (ds : List Char) : Nat :=
  ds.foldl (fun acc c => 10 * acc + (c.toNat - 48)) 0

/-- Parse a JSON numeral: optional minus, integer digits, optional
fractional digits, as a rational.  Exponent notation and the RFC
leading-zero restriction are out of scope of the claims. -/
def parseNumber (cs : List Char) : Option (Json × List Char) :=
  let (neg, cs₁) := match cs with
    | '-' :: r => (true, r)
    | _ => (false, cs)
  match takeDigits cs₁ with
  | ([], _) => none
  | (ds, rest) =>
      let ip : ℚ := (digitsToNat ds : ℚ)
      match rest with
      | '.' :: r₂ =>
          (match takeDigits r₂ with
           | ([], _) => none
           | (fs, rest₂) =>
               let fv : ℚ := (digitsToNat fs : ℚ) / ((10 : ℚ) ^ fs.length)
               some (.num ((if neg then -1 else 1) * (ip + fv)), rest₂))
      | _ => some (.num ((if neg then -1 else 1) * ip), rest)

/-- Recursive-descent JSON parser with a step budget, modelling CPython
json.loads over the modelled grammar.  Array and object tails recurse by
re-reading a synthetic opening bracket, keeping the recursion structural
in the budget so concrete runs reduce definitionally. -/
def parseVal : Nat → List Char → Option (Json × List Char)
  | 0, _ => none
  | fuel + 1, cs =>
    match skipWs cs with
    | 'n' :: 'u' :: 'l' :: 'l' :: r => some (.null, r)
    | 't' :: 'r' :: 'u' :: 'e' :: r => some (.bool true, r)
    | 'f' :: 'a' :: 'l' :: 's' :: 'e' :: r => some (.bool false, r)
    | '"' :: r => do
        let (s, rest) ← parseJString r
        pure (.str s, rest)
    | '[' :: r =>
        (match skipWs r with
         | ']' :: rest => some (.arr [], rest)
         | r₁ => do
             let (v, rest₁) ← parseVal fuel r₁
             match skipWs rest₁ with
             | ',' :: r₂ => do
                 let (tail, rest₂) ← parseVal fuel ('[' :: r₂)
                 match tail with
                 | .arr vs => pure (.arr (v :: vs), rest₂)
                 | _ => none
             | ']' :: r₂ => pure (.arr [v], r₂)
             | _ => none)
    | '{' :: r =>
        (match skipWs r with
         | '}' :: rest => some (.obj [], rest)
         | r₁ => do
             let (k, rest₁) ← (match r₁ with
               | '"' :: rk => parseJString rk
               | _ => none)
             match skipWs rest₁ with
             | ':' :: r₂ => do
                 let (v, rest₂) ← parseVal fuel r₂
                 (match skipWs rest₂ with
                  | ',' :: r₃ => do
                      let (tail, rest₃) ← parseVal fuel ('{' :: r₃)
                      (match tail with
                       | .obj kvs => pure (.obj ((k, v) :: kvs), rest₃)
                       | _ => none)
                  | '}' :: r₃ => pure (.obj [(k, v)], r₃)
                  | _ => none)
             | _ => none)
    | c :: r =>
        if c = '-' ∨ c.isDigit then parseNumber (c :: r) else none
    | [] => none

/-- CPython json.loads on the modelled grammar: parse one value and
require only trailing whitespace. -/
def jsonLoads (s : String) : Option Json :=
  match parseVal (2 * s.data.length + 4) s.data with
  | some (j, rest) => if (skipWs rest).isEmpty then some j else none
  | none => none

/-- The raw request value DrLucyFlightMemory.normalize_input receives: a
dict, a string, or any other Python value carried by its str()
rendering. -/
inductive RawInput where
  | dict (kvs : JObj)
  | str (s : String)
  | other (repr : String)

/-- DrLucyFlightMemory.normalize_input (dr_lucy_service_fixed.py lines
35–56): a dict passes through unchanged; a string is parsed as JSON with
the scenario wrapper as fallback; any other value is wrapped as its
str() rendering.  No statement of the body raises, so the final except
fallback (scenario unknown) is dead code and the function is total. -/
def normalize_input : RawInput → Json
  | .dict kvs => .obj kvs
  | .str s =>
      (match jsonLoads s with
       | some j => j
       | none => .obj [("scenario", .str s)])
  | .other r => .obj [("scenario", .str r)]

/-- C6 counterexample: a non-dict, non-string input — irrecoverably
malformed for the claim — is normalized to a payload keyed "scenario",
not the claimed payload keyed "raw". -/
theorem normalize_input_scenario_not_raw :
    normalize_input (.other "42") = .obj [("scenario", Json.str "42")] ∧
    Json.obj [("scenario", Json.str "42")] ≠ Json.obj [("raw", Json.str "42")] := by
  refine ⟨rfl, ?_⟩
  intro h
  injection h with h₁
  injection h₁ with h₂
  injection h₂ with h₃
  simp at h₃

/-- C6 amended: normalize_input never fails, and its value is determined
case by case — dicts pass through, JSON-parsable strings return the
parsed value, other strings and all non-dict non-string values are
wrapped as a payload whose single key is "scenario" (never "raw"). -/
theorem normalize_input_total (x : RawInput) :
    (∀ kvs, x = .dict kvs → normalize_input x = .obj kvs) ∧
    (∀ s j, x = .str s → jsonLoads s = some j → normalize_input x = j) ∧
    (∀ s, x = .str s → jsonLoads s = none →
      normalize_input x = .obj [("scenario", .str s)]) ∧
    (∀ r, x = .other r → normalize_input x = .obj [("scenario", .str r)]) := by
  refine ⟨?_, ?_, ?_, ?_⟩
  · rintro kvs rfl
    rfl
  · rintro s j rfl hj
    show (match jsonLoads s with
          | some j => j
          | none => Json.obj [("scenario", Json.str s)]) = j
    rw [hj]
  · rintro s rfl hj
    show (match jsonLoads s with
          | some j => j
          | none => Json.obj [("scenario", Json.str s)]) =
      Json.obj [("scenario", Json.str s)]
    rw [hj]
  · rintro r rfl
    rfl

/-- Witness for the amended C6: a plain-text string is wrapped under the
scenario key, and a non-string value is wrapped as its rendering. -/
theorem normalize_input_total_witness :
    normalize_input (.str "plain text") = .obj [("scenario", Json.str "plain text")] ∧
    normalize_input (.other "42") = .obj [("scenario", Json.str "42")] :=
  ⟨(normalize_input_total (.str "plain text")).2.2.1 "plain text" rfl (by rfl),
   (normalize_input_total (.other "42")).2.2.2 "42" rfl⟩
